import Mathlib

/-!
Shallow embedding of the screenshot service in src/app.py.

The program is a Flask app with one route. Its core pieces, embedded here:

* a filesystem model (association list from paths to byte contents), since
  the worker moves, checks, reads and deletes files;
* `get_image_bytes_worker`: the body of the function `get_image_bytes`
  (src/app.py lines 64-157) without the memoize decorator.  The external
  subprocess call is parametrised by a `RunBehavior` oracle describing what
  the renderer did (exit class, and the bytes it left at the default
  location "screenshot.png").  `os.remove` failures are parametrised by
  oracles: `preRemoveFails` for the unguarded removal at line 83, and a
  `cleanupFails` path oracle for the try/except-guarded removals in the
  finally block (lines 145-157);
* the memoize layer: flask_caching SimpleCache semantics of
  `@cache.memoize(timeout=3600)` — look the key up, on a miss run the
  function and store its return value with the configured timeout; an
  exception stores nothing;
* `capture_screenshot`: the route handler (lines 29-61): parameter
  validation, delegation, and translation of raised HTTP errors into
  status codes;
* two small interleaving models, `LockModel` for the `firefox_lock`
  mutual-exclusion discipline and `MemoModel` for the concurrent behaviour
  of the memoize layer (whose get/compute/set sequence holds no lock).
-/

namespace App

abbrev Path := String

abbrev Bytes := List Nat

/-- Filesystem model: association list from paths to file contents. -/
abbrev FS := List (Path × Bytes)

def fsLookup : FS → Path → Option Bytes
  | [], _ => none
  | (q, b) :: rest, p => if p = q then some b else fsLookup rest p

def fsRemove (fs : FS) (p : Path) : FS :=
  fs.filter (fun e => e.1 != p)

def fsSet (fs : FS) (p : Path) (b : Bytes) : FS :=
  (p, b) :: fsRemove fs p

def fsExists (fs : FS) (p : Path) : Bool :=
  (fsLookup fs p).isSome

/-- HTTP-error payload carried by flask abort (code, description). -/
structure HErr where
  code : Nat
  description : String
deriving DecidableEq, Repr

/-- Exit classification of the subprocess.run call (src/app.py lines 90-96
with check=True): normal zero exit, TimeoutExpired, CalledProcessError
carrying stderr, or FileNotFoundError for a missing executable. -/
inductive ProcOutcome where
  | success : ProcOutcome
  | timedOut : ProcOutcome
  | calledProcessError : String → ProcOutcome
  | fileNotFound : ProcOutcome
deriving DecidableEq, Repr

/-- Oracle for one renderer invocation: its exit class, and the content it
left at the default location "screenshot.png" (none if it created no file;
the renderer never receives an explicit output path). On fileNotFound the
executable never ran, so nothing is written. -/
structure RunBehavior where
  result : ProcOutcome
  written : Option Bytes
deriving DecidableEq, Repr

/-- os.path.join(os.getcwd(), "screenshot.png") — the default file the
headless renderer writes when given no filename (src/app.py line 72).
The working directory is fixed for the process, so we keep the basename. -/
def defaultScreenshotFile : Path := "screenshot.png"

/-- FIREFOX_TIMEOUT = 15 (src/app.py line 23). -/
def FIREFOX_TIMEOUT : Nat := 15

/-- The command list built at src/app.py line 86:
command = ["firefox", "--headless", "--screenshot", url]  # No filename -/
def firefoxCommand (url : String) : List String :=
  ["firefox", "--headless", "--screenshot", url]

/-- Effect of the subprocess on the filesystem: whatever the renderer wrote
at the default location (nothing when the executable was not found). -/
def fsAfterRun (fs : FS) (b : RunBehavior) : FS :=
  match b.result, b.written with
  | .fileNotFound, _ => fs
  | _, some bs => fsSet fs defaultScreenshotFile bs
  | _, none => fs

/-- One guarded removal of the finally block (lines 147-157): the removal
is attempted only if the path exists; a failing removal is caught and
logged, leaving the file in place. -/
def tryRemove (fs : FS) (p : Path) (fails : Path → Bool) : FS :=
  if fsExists fs p then (if fails p then fs else fsRemove fs p) else fs

/-- The finally block (src/app.py lines 145-157): remove the default
screenshot file and then the ephemeral output path, each guarded by its
own try/except. -/
def cleanupFiles (fs : FS) (outputPath : Path) (fails : Path → Bool) : FS :=
  tryRemove (tryRemove fs defaultScreenshotFile fails) outputPath fails

/-- Result of one execution of the worker body: the returned value or the
raised HTTP error, the filesystem afterwards, whether subprocess.run was
reached, the command passed to it, and the filesystem at the moment it
started. -/
structure WorkerOutput where
  result : Except HErr Bytes
  fs : FS
  runInvoked : Bool
  commandUsed : Option (List String)
  fsAtRun : Option FS

/-- The try-block of get_image_bytes (src/app.py lines 74-143), before the
finally block runs.  Steps, in source order: the NamedTemporaryFile context
picks a fresh name `outputPath` (created and deleted inside the with, so a
net no-op on the filesystem); under firefox_lock a pre-existing default
screenshot file is removed (an os.remove failure here is uncaught and lands
in the generic handler as a 500); the command is built without a filename;
subprocess.run executes with the four exit classes; on success the default
file must exist and be non-empty, else abort(500); the file is moved to
`outputPath` and its bytes are read back and returned.  Error branches:
TimeoutExpired → abort(504); CalledProcessError → abort(500) with stderr;
FileNotFoundError → abort(500); the HTTPException raised by the validator
is re-raised unchanged by the generic handler since it carries a code.
`renderAndValidate` is the part from the command construction on, taking
the filesystem `fs1` as it stands after the removal of a stale default
screenshot file. -/
def renderAndValidate (url : String) (outputPath : Path) (fs1 : FS)
    (b : RunBehavior) : WorkerOutput :=
  match b.result with
  | .timedOut =>
      { result := .error ⟨504, "Screenshot command timed out."⟩,
        fs := fsAfterRun fs1 b, runInvoked := true,
        commandUsed := some (firefoxCommand url), fsAtRun := some fs1 }
  | .calledProcessError stderr =>
      { result := .error ⟨500, "Firefox failed to take screenshot. Error: " ++ stderr⟩,
        fs := fsAfterRun fs1 b, runInvoked := true,
        commandUsed := some (firefoxCommand url), fsAtRun := some fs1 }
  | .fileNotFound =>
      { result := .error ⟨500, "Firefox executable not found on server."⟩,
        fs := fsAfterRun fs1 b, runInvoked := true,
        commandUsed := some (firefoxCommand url), fsAtRun := some fs1 }
  | .success =>
      match fsLookup (fsAfterRun fs1 b) defaultScreenshotFile with
      | none =>
          { result := .error ⟨500, "Firefox ran but failed to produce a screenshot."⟩,
            fs := fsAfterRun fs1 b, runInvoked := true,
            commandUsed := some (firefoxCommand url), fsAtRun := some fs1 }
      | some bs =>
          if bs.length = 0 then
            { result := .error ⟨500, "Firefox ran but failed to produce a screenshot."⟩,
              fs := fsAfterRun fs1 b, runInvoked := true,
              commandUsed := some (firefoxCommand url), fsAtRun := some fs1 }
          else
            { result := .ok bs,
              fs := fsSet (fsRemove (fsAfterRun fs1 b) defaultScreenshotFile) outputPath bs,
              runInvoked := true,
              commandUsed := some (firefoxCommand url), fsAtRun := some fs1 }

def get_image_bytes_core (url : String) (outputPath : Path) (fs : FS)
    (b : RunBehavior) (preRemoveFails : Bool) : WorkerOutput :=
  if fsExists fs defaultScreenshotFile && preRemoveFails then
    { result := .error ⟨500, "An unexpected server error occurred in worker."⟩,
      fs := fs, runInvoked := false, commandUsed := none, fsAtRun := none }
  else
    renderAndValidate url outputPath (fsRemove fs defaultScreenshotFile) b

/-- get_image_bytes without the memoize decorator: the try-block followed
by the finally block, which cleans the default file and the ephemeral
output path and never changes the outcome. -/
def get_image_bytes_worker (url : String) (outputPath : Path) (fs : FS)
    (b : RunBehavior) (preRemoveFails : Bool) (cleanupFails : Path → Bool) :
    WorkerOutput :=
  let c := get_image_bytes_core url outputPath fs b preRemoveFails
  { c with fs := cleanupFiles c.fs outputPath cleanupFails }

/-- timeout=3600 of the memoize decorator (src/app.py line 64), equal to
CACHE_DEFAULT_TIMEOUT in the config mapping (line 15). -/
def MEMOIZE_TIMEOUT : Nat := 3600

/-- Cache model: association list from the memoize key (the url argument)
to the stored value and its insertion time in seconds. -/
abbrev CacheState := List (String × (Bytes × Nat))

def cacheFind : CacheState → String → Option (Bytes × Nat)
  | [], _ => none
  | (k, e) :: rest, key => if key = k then some e else cacheFind rest key

/-- SimpleCache get: an entry is returned while now is strictly before its
insertion time plus the stored timeout (SimpleCache keeps an expiry
timestamp of insertion time + timeout and serves the entry while the
expiry is still in the future). -/
def cacheLookup (c : CacheState) (key : String) (now : Nat) : Option Bytes :=
  match cacheFind c key with
  | some (v, t) => if now < t + MEMOIZE_TIMEOUT then some v else none
  | none => none

/-- SimpleCache set: overwrite the entry for the key, stamping now. -/
def cacheSet (c : CacheState) (key : String) (v : Bytes) (now : Nat) :
    CacheState :=
  (key, (v, now)) :: c.filter (fun e => e.1 != key)

/-- Result of one memoized call: the outcome, the cache afterwards, the
filesystem afterwards, and whether the worker body (and so the renderer)
ran at all during this call. -/
structure MemoOutput where
  result : Except HErr Bytes
  cache : CacheState
  fs : FS
  runInvoked : Bool

/-- The memoized get_image_bytes (src/app.py line 64): flask_caching
looks the key up; on a hit the stored bytes are returned and the worker
body never runs; on a miss the worker runs, and only a normally returned
value is stored (a raised exception propagates and stores nothing). -/
def get_image_bytes (url : String) (now : Nat) (cache : CacheState)
    (outputPath : Path) (fs : FS) (b : RunBehavior)
    (preRemoveFails : Bool) (cleanupFails : Path → Bool) : MemoOutput :=
  match cacheLookup cache url now with
  | some v => { result := .ok v, cache := cache, fs := fs, runInvoked := false }
  | none =>
      let w := get_image_bytes_worker url outputPath fs b preRemoveFails cleanupFails
      match w.result with
      | .ok bs =>
          { result := .ok bs, cache := cacheSet cache url bs now,
            fs := w.fs, runInvoked := true }
      | .error e =>
          { result := .error e, cache := cache, fs := w.fs, runInvoked := true }

/-- Python str.startswith, embedded on the character lists of the two
strings so that it evaluates in proofs. -/
def strStartsWith (s p : String) : Bool :=
  s.data.take p.data.length == p.data

/-- The scheme check at src/app.py line 41:
url.startswith("http://") or url.startswith("https://"). -/
def valid_url (url : String) : Bool :=
  strStartsWith url "http://" || strStartsWith url "https://"

/-- What the route returns: a status, the PNG bytes on 200, the error
description otherwise, plus observables for the proofs — whether the
memoized layer was entered and whether the renderer ran, and the cache
and filesystem after the request. -/
structure HandlerOutput where
  status : Nat
  image : Option Bytes
  bodyText : String
  cacheTouched : Bool
  runInvoked : Bool
  cache : CacheState
  fs : FS

/-- capture_screenshot (src/app.py lines 29-61): a missing url parameter
aborts 400; a url without an http or https scheme aborts 400; otherwise
get_image_bytes is called and its bytes are served as image/png, while a
raised exception carrying a code is translated to that status and
description (every error the worker raises is an HTTPException with a
code, so the final 500 fallback of the route is unreachable here).  The
quotation marks the source puts around url and around the scheme names in
the two 400 messages are elided here; no claim depends on those bodies. -/
def capture_screenshot (urlParam : Option String) (now : Nat)
    (cache : CacheState) (outputPath : Path) (fs : FS) (b : RunBehavior)
    (preRemoveFails : Bool) (cleanupFails : Path → Bool) : HandlerOutput :=
  match urlParam with
  | none =>
      { status := 400, image := none,
        bodyText := "Missing url query parameter.",
        cacheTouched := false, runInvoked := false, cache := cache, fs := fs }
  | some url =>
      if valid_url url then
        let m := get_image_bytes url now cache outputPath fs b preRemoveFails cleanupFails
        match m.result with
        | .ok bs =>
            { status := 200, image := some bs, bodyText := "",
              cacheTouched := true, runInvoked := m.runInvoked,
              cache := m.cache, fs := m.fs }
        | .error e =>
            { status := e.code, image := none, bodyText := e.description,
              cacheTouched := true, runInvoked := m.runInvoked,
              cache := m.cache, fs := m.fs }
      else
        { status := 400, image := none,
          bodyText := "Invalid URL. Must start with http or https.",
          cacheTouched := false, runInvoked := false, cache := cache, fs := fs }

/-!
Interleaving model of the firefox_lock discipline (src/app.py lines 26 and
80-112).  Each request thread on a cache miss goes: idle (before line 80),
waiting (blocked in the lock acquire), rendering (inside the with block,
lines 82-112, which contains the subprocess.run call), done (lock
released).  threading.Lock grants the lock to one waiter only when it is
free, and only the holder releases it on leaving the with block.
-/

namespace LockModel

inductive PC where
  | idle : PC
  | waiting : PC
  | rendering : PC
  | done : PC
deriving DecidableEq, Repr

structure St where
  pc : Nat → PC
  lock : Option Nat

def upd (f : Nat → PC) (t : Nat) (v : PC) : Nat → PC :=
  fun x => if x = t then v else f x

/-- All threads before the lock acquire, lock free. -/
def init : St :=
  { pc := fun _ => PC.idle, lock := none }

/-- One scheduler step: a thread reaches the acquire, a waiting thread
takes the free lock and enters the with block, or the holder leaves the
with block and releases. -/
inductive Step : St → St → Prop where
  | request (t : Nat) (s : St) (h : s.pc t = PC.idle) :
      Step s { pc := upd s.pc t PC.waiting, lock := s.lock }
  | acquire (t : Nat) (s : St) (h : s.pc t = PC.waiting) (hl : s.lock = none) :
      Step s { pc := upd s.pc t PC.rendering, lock := some t }
  | release (t : Nat) (s : St) (h : s.pc t = PC.rendering) :
      Step s { pc := upd s.pc t PC.done, lock := none }

/-- States reachable from the initial state by any interleaving. -/
def Reach (s : St) : Prop :=
  Relation.ReflTransGen Step init s

/-- A thread inside the with block holds the lock. -/
def HoldsInv (s : St) : Prop :=
  ∀ t : Nat, s.pc t = PC.rendering → s.lock = some t

end LockModel

/-!
Interleaving model of the memoize layer under concurrency.  The
flask_caching decorator runs, per call and with no lock of its own:
rv = cache.get(key); if rv is None: rv = f(args); cache.set(key, rv).
For one fixed uncached key, each thread therefore goes: start (about to
call cache.get), then on a miss missed (get returned None, about to call
the worker f), then computed (f ran — the renderer was invoked; this step
is where the firefox_lock serialises threads, but serialisation does not
remove the step), then stored (cache.set ran); on a hit it goes directly
to doneHit with the stored bytes and never runs f.
-/

namespace MemoModel

inductive MPC where
  | start : MPC
  | missed : MPC
  | computed : MPC
  | stored : MPC
  | doneHit : MPC
deriving DecidableEq, Repr

structure MSt where
  pc : Nat → MPC
  cache : Option Bytes

def upd (f : Nat → MPC) (t : Nat) (v : MPC) : Nat → MPC :=
  fun x => if x = t then v else f x

/-- The bytes a renderer run produces in this model (the PNG the worker
returns; its exact value is irrelevant to the interleaving argument). -/
def renderedBytes : Bytes := [137, 80, 78, 71]

/-- All threads about to call cache.get for the same key, key uncached. -/
def init : MSt :=
  { pc := fun _ => MPC.start, cache := none }

inductive Step : MSt → MSt → Prop where
  | checkHit (t : Nat) (s : MSt) (v : Bytes)
      (h : s.pc t = MPC.start) (hc : s.cache = some v) :
      Step s { pc := upd s.pc t MPC.doneHit, cache := s.cache }
  | checkMiss (t : Nat) (s : MSt)
      (h : s.pc t = MPC.start) (hc : s.cache = none) :
      Step s { pc := upd s.pc t MPC.missed, cache := s.cache }
  | compute (t : Nat) (s : MSt) (h : s.pc t = MPC.missed) :
      Step s { pc := upd s.pc t MPC.computed, cache := s.cache }
  | store (t : Nat) (s : MSt) (h : s.pc t = MPC.computed) :
      Step s { pc := upd s.pc t MPC.stored, cache := some renderedBytes }

def Steps : MSt → MSt → Prop :=
  Relation.ReflTransGen Step

def Reach (s : MSt) : Prop :=
  Steps init s

/-- Number of threads among the first n that have executed the compute
step, i.e. the number of renderer invocations performed so far. -/
def invocations (s : MSt) (n : Nat) : Nat :=
  (List.range n).countP
    (fun t => s.pc t = MPC.computed || s.pc t = MPC.stored)

end MemoModel

/-! Helper lemmas about the filesystem model. -/

theorem fsLookup_fsRemove (fs : FS) (p q : Path) :
    fsLookup (fsRemove fs p) q = if q = p then none else fsLookup fs q := by
  induction fs with
  | nil => simp [fsRemove, fsLookup]
  | cons a rest ih =>
      obtain ⟨r, b⟩ := a
      by_cases hrp : r = p
      · subst hrp
        have hrm : fsRemove ((r, b) :: rest) r = fsRemove rest r := by
          simp [fsRemove]
        rw [hrm, ih]
        by_cases hqr : q = r <;> simp [fsLookup, hqr]
      · have hrm : fsRemove ((r, b) :: rest) p = (r, b) :: fsRemove rest p := by
          simp [fsRemove, hrp]
        rw [hrm]
        by_cases hqr : q = r
        · subst hqr
          simp [fsLookup, hrp]
        · simp [fsLookup, hqr, ih]

theorem fsLookup_fsSet (fs : FS) (p : Path) (b : Bytes) (q : Path) :
    fsLookup (fsSet fs p b) q = if q = p then some b else fsLookup fs q := by
  by_cases hqp : q = p
  · simp [fsSet, fsLookup, hqp]
  · simp [fsSet, fsLookup, hqp, fsLookup_fsRemove]

theorem fsLookup_tryRemove_noFail (fs : FS) (p q : Path) :
    fsLookup (tryRemove fs p (fun _ => false)) q =
      if q = p then none else fsLookup fs q := by
  by_cases hex : fsExists fs p = true
  · simp [tryRemove, hex, fsLookup_fsRemove]
  · have hnone : fsLookup fs p = none := by
      cases h : fsLookup fs p with
      | none => rfl
      | some v => exact absurd (by simp [fsExists, h]) hex
    by_cases hqp : q = p
    · subst hqp
      simp [tryRemove, hex, hnone]
    · simp [tryRemove, hex, hqp]

theorem fsLookup_tryRemove_mono (fs : FS) (p q : Path) (f : Path → Bool)
    (h : fsLookup fs q = none) :
    fsLookup (tryRemove fs p f) q = none := by
  unfold tryRemove
  split
  · split
    · exact h
    · rw [fsLookup_fsRemove]
      split <;> simp [h]
  · exact h

theorem fsLookup_cleanup_noFail (fs : FS) (outputPath q : Path) :
    fsLookup (cleanupFiles fs outputPath (fun _ => false)) q =
      if q = outputPath ∨ q = defaultScreenshotFile then none
      else fsLookup fs q := by
  unfold cleanupFiles
  rw [fsLookup_tryRemove_noFail, fsLookup_tryRemove_noFail]
  by_cases h1 : q = outputPath <;> by_cases h2 : q = defaultScreenshotFile <;>
    simp [h1, h2]

theorem fsLookup_cleanup_mono (fs : FS) (outputPath q : Path)
    (f : Path → Bool) (h : fsLookup fs q = none) :
    fsLookup (cleanupFiles fs outputPath f) q = none := by
  unfold cleanupFiles
  exact fsLookup_tryRemove_mono _ _ _ _ (fsLookup_tryRemove_mono _ _ _ _ h)

/-! Helper lemmas about the worker body. -/

theorem renderAndValidate_runInvoked (url : String) (p : Path) (fs1 : FS)
    (b : RunBehavior) : (renderAndValidate url p fs1 b).runInvoked = true := by
  unfold renderAndValidate
  split <;> (try split) <;> (try split) <;> rfl

theorem renderAndValidate_commandUsed (url : String) (p : Path) (fs1 : FS)
    (b : RunBehavior) :
    (renderAndValidate url p fs1 b).commandUsed = some (firefoxCommand url) := by
  unfold renderAndValidate
  split <;> (try split) <;> (try split) <;> rfl

theorem renderAndValidate_fsAtRun (url : String) (p : Path) (fs1 : FS)
    (b : RunBehavior) :
    (renderAndValidate url p fs1 b).fsAtRun = some fs1 := by
  unfold renderAndValidate
  split <;> (try split) <;> (try split) <;> rfl

/-- A successful worker body came from a zero-exit run whose artifact at
the default location was the non-empty returned bytes, and the artifact
was moved to the destination path. -/
theorem renderAndValidate_ok (url : String) (p : Path) (fs1 : FS)
    (b : RunBehavior) (bs : Bytes)
    (h : (renderAndValidate url p fs1 b).result = .ok bs) :
    b.result = .success ∧
      fsLookup (fsAfterRun fs1 b) defaultScreenshotFile = some bs ∧
      bs ≠ [] ∧
      (renderAndValidate url p fs1 b).fs =
        fsSet (fsRemove (fsAfterRun fs1 b) defaultScreenshotFile) p bs := by
  unfold renderAndValidate at h ⊢
  split at h
  · exact absurd h (by simp)
  · exact absurd h (by simp)
  · exact absurd h (by simp)
  · rename_i hres
    split at h
    · exact absurd h (by simp)
    · rename_i bs0 hlook
      split at h
      · exact absurd h (by simp)
      · rename_i hlen
        have hbs : bs0 = bs := by simpa using h
        subst hbs
        refine ⟨hres, hlook, ?_, ?_⟩
        · intro hnil
          exact hlen (by simp [hnil])
        · simp [hres, hlook, hlen]

theorem worker_result_eq_core (url : String) (p : Path) (fs : FS)
    (b : RunBehavior) (pre : Bool) (cf : Path → Bool) :
    (get_image_bytes_worker url p fs b pre cf).result =
      (get_image_bytes_core url p fs b pre).result := rfl

theorem worker_fs_eq (url : String) (p : Path) (fs : FS)
    (b : RunBehavior) (pre : Bool) (cf : Path → Bool) :
    (get_image_bytes_worker url p fs b pre cf).fs =
      cleanupFiles (get_image_bytes_core url p fs b pre).fs p cf := rfl

theorem core_guard_pos (url : String) (p : Path) (fs : FS) (b : RunBehavior)
    (pre : Bool) (h : (fsExists fs defaultScreenshotFile && pre) = true) :
    get_image_bytes_core url p fs b pre =
      { result := .error ⟨500, "An unexpected server error occurred in worker."⟩,
        fs := fs, runInvoked := false, commandUsed := none, fsAtRun := none } := by
  unfold get_image_bytes_core
  rw [if_pos h]

theorem core_guard_neg (url : String) (p : Path) (fs : FS) (b : RunBehavior)
    (pre : Bool) (h : ¬ (fsExists fs defaultScreenshotFile && pre) = true) :
    get_image_bytes_core url p fs b pre =
      renderAndValidate url p (fsRemove fs defaultScreenshotFile) b := by
  unfold get_image_bytes_core
  rw [if_neg h]

theorem fsAfterRun_success_lookup (fs1 : FS) (b : RunBehavior)
    (hres : b.result = ProcOutcome.success)
    (hdef : fsLookup fs1 defaultScreenshotFile = none) :
    fsLookup (fsAfterRun fs1 b) defaultScreenshotFile = b.written := by
  obtain ⟨res, written⟩ := b
  simp only at hres
  subst hres
  cases written <;> simp [fsAfterRun, fsLookup_fsSet, hdef]

/-- A successful worker run came from a zero-exit renderer invocation that
wrote exactly the returned non-empty bytes, which were then moved to the
destination path. -/
theorem core_ok (url : String) (p : Path) (fs : FS) (b : RunBehavior)
    (pre : Bool) (bs : Bytes)
    (h : (get_image_bytes_core url p fs b pre).result = .ok bs) :
    b.result = .success ∧ b.written = some bs ∧ bs ≠ [] ∧
      (get_image_bytes_core url p fs b pre).fs =
        fsSet (fsRemove (fsAfterRun (fsRemove fs defaultScreenshotFile) b)
          defaultScreenshotFile) p bs := by
  by_cases hpre : (fsExists fs defaultScreenshotFile && pre) = true
  · rw [core_guard_pos _ _ _ _ _ hpre] at h
    exact absurd h (by simp)
  · rw [core_guard_neg _ _ _ _ _ hpre] at h ⊢
    obtain ⟨hres, hlook, hne, hfs⟩ := renderAndValidate_ok _ _ _ _ _ h
    have hdef : fsLookup (fsRemove fs defaultScreenshotFile)
        defaultScreenshotFile = none := by
      simp [fsLookup_fsRemove]
    rw [fsAfterRun_success_lookup _ _ hres hdef] at hlook
    exact ⟨hres, hlook, hne, hfs⟩

/-- The full classification of the worker outcome by the oracle inputs. -/
theorem core_result_eq (url : String) (p : Path) (fs : FS) (b : RunBehavior)
    (pre : Bool) :
    (get_image_bytes_core url p fs b pre).result =
      if fsExists fs defaultScreenshotFile && pre then
        .error ⟨500, "An unexpected server error occurred in worker."⟩
      else
        match b.result, b.written with
        | .timedOut, _ => .error ⟨504, "Screenshot command timed out."⟩
        | .calledProcessError stderr, _ =>
            .error ⟨500, "Firefox failed to take screenshot. Error: " ++ stderr⟩
        | .fileNotFound, _ => .error ⟨500, "Firefox executable not found on server."⟩
        | .success, none =>
            .error ⟨500, "Firefox ran but failed to produce a screenshot."⟩
        | .success, some bs =>
            if bs.length = 0 then
              .error ⟨500, "Firefox ran but failed to produce a screenshot."⟩
            else .ok bs := by
  by_cases hpre : (fsExists fs defaultScreenshotFile && pre) = true
  · rw [core_guard_pos _ _ _ _ _ hpre, if_pos hpre]
  · rw [core_guard_neg _ _ _ _ _ hpre, if_neg hpre]
    obtain ⟨res, written⟩ := b
    have hdef : fsLookup (fsRemove fs defaultScreenshotFile)
        defaultScreenshotFile = none := by
      simp [fsLookup_fsRemove]
    cases res <;> cases written <;>
      (simp [renderAndValidate, fsAfterRun, fsLookup_fsSet, hdef]
       try (split <;> rfl))

/-! Helper lemmas about the cache model. -/

theorem cacheFind_filterOut (c : CacheState) (key k : String) :
    cacheFind (c.filter (fun e => e.1 != key)) k =
      if k = key then none else cacheFind c k := by
  induction c with
  | nil => simp [cacheFind]
  | cons a rest ih =>
      obtain ⟨r, e⟩ := a
      by_cases hrk : r = key
      · subst hrk
        have hrm : List.filter (fun e => e.1 != r) ((r, e) :: rest) =
            List.filter (fun e => e.1 != r) rest := by
          simp
        rw [hrm, ih]
        by_cases hkr : k = r <;> simp [cacheFind, hkr]
      · have hrm : List.filter (fun e => e.1 != key) ((r, e) :: rest) =
            (r, e) :: List.filter (fun e => e.1 != key) rest := by
          simp [hrk]
        rw [hrm]
        by_cases hkr : k = r
        · subst hkr
          simp [cacheFind, hrk]
        · simp [cacheFind, hkr, ih]

theorem cacheFind_cacheSet (c : CacheState) (key : String) (v : Bytes)
    (now : Nat) (k : String) :
    cacheFind (cacheSet c key v now) k =
      if k = key then some (v, now) else cacheFind c k := by
  by_cases hk : k = key
  · simp [cacheSet, cacheFind, hk]
  · simp [cacheSet, cacheFind, hk, cacheFind_filterOut]

theorem get_image_bytes_hit (url : String) (now : Nat) (cache : CacheState)
    (p : Path) (fs : FS) (b : RunBehavior) (pre : Bool) (cf : Path → Bool)
    (v : Bytes) (h : cacheLookup cache url now = some v) :
    get_image_bytes url now cache p fs b pre cf =
      { result := .ok v, cache := cache, fs := fs, runInvoked := false } := by
  unfold get_image_bytes
  rw [h]

theorem get_image_bytes_miss_runInvoked (url : String) (now : Nat)
    (cache : CacheState) (p : Path) (fs : FS) (b : RunBehavior) (pre : Bool)
    (cf : Path → Bool) (h : cacheLookup cache url now = none) :
    (get_image_bytes url now cache p fs b pre cf).runInvoked = true := by
  unfold get_image_bytes
  rw [h]
  cases hw : (get_image_bytes_worker url p fs b pre cf).result <;> simp [hw]

theorem get_image_bytes_miss_ok (url : String) (now : Nat)
    (cache : CacheState) (p : Path) (fs : FS) (b : RunBehavior) (pre : Bool)
    (cf : Path → Bool) (bs : Bytes) (h : cacheLookup cache url now = none)
    (hw : (get_image_bytes_worker url p fs b pre cf).result = .ok bs) :
    get_image_bytes url now cache p fs b pre cf =
      { result := .ok bs, cache := cacheSet cache url bs now,
        fs := (get_image_bytes_worker url p fs b pre cf).fs,
        runInvoked := true } := by
  unfold get_image_bytes
  rw [h]
  simp [hw]

theorem get_image_bytes_miss_error (url : String) (now : Nat)
    (cache : CacheState) (p : Path) (fs : FS) (b : RunBehavior) (pre : Bool)
    (cf : Path → Bool) (e : HErr) (h : cacheLookup cache url now = none)
    (hw : (get_image_bytes_worker url p fs b pre cf).result = .error e) :
    get_image_bytes url now cache p fs b pre cf =
      { result := .error e, cache := cache,
        fs := (get_image_bytes_worker url p fs b pre cf).fs,
        runInvoked := true } := by
  unfold get_image_bytes
  rw [h]
  simp [hw]

theorem cacheLookup_some (c : CacheState) (k : String) (now : Nat) (v : Bytes)
    (h : cacheLookup c k now = some v) :
    ∃ t, cacheFind c k = some (v, t) ∧ now < t + MEMOIZE_TIMEOUT := by
  unfold cacheLookup at h
  cases hf : cacheFind c k with
  | none =>
      simp only [hf] at h
      exact absurd h (by simp)
  | some e =>
      obtain ⟨w, t⟩ := e
      simp only [hf] at h
      by_cases ht : now < t + MEMOIZE_TIMEOUT
      · rw [if_pos ht] at h
        obtain rfl : w = v := by simpa using h
        exact ⟨t, rfl, ht⟩
      · rw [if_neg ht] at h
        exact absurd h (by simp)

theorem capture_ok (url : String) (now : Nat) (cache : CacheState) (p : Path)
    (fs : FS) (b : RunBehavior) (pre : Bool) (cf : Path → Bool) (bs : Bytes)
    (hv : valid_url url = true)
    (h : (get_image_bytes url now cache p fs b pre cf).result = .ok bs) :
    capture_screenshot (some url) now cache p fs b pre cf =
      { status := 200, image := some bs, bodyText := "",
        cacheTouched := true,
        runInvoked := (get_image_bytes url now cache p fs b pre cf).runInvoked,
        cache := (get_image_bytes url now cache p fs b pre cf).cache,
        fs := (get_image_bytes url now cache p fs b pre cf).fs } := by
  unfold capture_screenshot
  simp [hv, h]

theorem capture_error (url : String) (now : Nat) (cache : CacheState)
    (p : Path) (fs : FS) (b : RunBehavior) (pre : Bool) (cf : Path → Bool)
    (e : HErr) (hv : valid_url url = true)
    (h : (get_image_bytes url now cache p fs b pre cf).result = .error e) :
    capture_screenshot (some url) now cache p fs b pre cf =
      { status := e.code, image := none, bodyText := e.description,
        cacheTouched := true,
        runInvoked := (get_image_bytes url now cache p fs b pre cf).runInvoked,
        cache := (get_image_bytes url now cache p fs b pre cf).cache,
        fs := (get_image_bytes url now cache p fs b pre cf).fs } := by
  unfold capture_screenshot
  simp [hv, h]

/-! Claim theorems. -/

/-- C10: whenever the subprocess is started, the filesystem at that moment
holds no file at the default screenshot location — any pre-existing one
was removed immediately before, inside the lock region — and hence a run
that passes the post-run existence-and-size check can only have observed
the file produced during that invocation: a successful result returns
exactly the bytes the renderer wrote. -/
theorem C10_default_absent_at_run :
    ∀ (url : String) (p : Path) (fs : FS) (b : RunBehavior) (pre : Bool)
      (cf : Path → Bool),
      (∀ f : FS,
        (get_image_bytes_worker url p fs b pre cf).fsAtRun = some f →
        fsLookup f defaultScreenshotFile = none) ∧
      (∀ bs : Bytes,
        (get_image_bytes_worker url p fs b pre cf).result = .ok bs →
        b.written = some bs) := by
  intro url p fs b pre cf
  constructor
  · intro f hf
    have hf' : (get_image_bytes_core url p fs b pre).fsAtRun = some f := hf
    by_cases hpre : (fsExists fs defaultScreenshotFile && pre) = true
    · rw [core_guard_pos _ _ _ _ _ hpre] at hf'
      exact absurd hf' (by simp)
    · rw [core_guard_neg _ _ _ _ _ hpre, renderAndValidate_fsAtRun] at hf'
      have hfe : f = fsRemove fs defaultScreenshotFile := by
        simpa using hf'.symm
      subst hfe
      simp [fsLookup_fsRemove]
  · intro bs hok
    have hok' : (get_image_bytes_core url p fs b pre).result = .ok bs := hok
    exact (core_ok _ _ _ _ _ _ hok').2.1

/-- C10 witness: with a stale default file present, the filesystem at the
moment the subprocess starts has no default file, and the returned bytes
are the ones the renderer wrote. -/
theorem C10_default_absent_at_run_witness :
    fsLookup [] defaultScreenshotFile = none ∧
    (RunBehavior.mk ProcOutcome.success (some [5])).written = some [5] := by
  have h := C10_default_absent_at_run "https://example.com" "/tmp/o.png"
      [(defaultScreenshotFile, [9])] ⟨ProcOutcome.success, some [5]⟩ false
      (fun _ => false)
  exact ⟨h.1 [] rfl, h.2 [5] rfl⟩

/-- C8: a cache entry is only created from a computation that passed the
exists-and-non-zero-size check, so across any request a cache whose
entries are all non-empty byte strings stays that way, and the body of a
200 response is a non-empty byte string. -/
theorem C8_entries_and_200_nonempty :
    ∀ (u : Option String) (now : Nat) (cache : CacheState) (p : Path)
      (fs : FS) (b : RunBehavior) (pre : Bool) (cf : Path → Bool),
      (∀ k v t, cacheFind cache k = some (v, t) → v ≠ []) →
      (∀ k v t,
        cacheFind (capture_screenshot u now cache p fs b pre cf).cache k =
          some (v, t) → v ≠ []) ∧
      (∀ bs, (capture_screenshot u now cache p fs b pre cf).image = some bs →
        bs ≠ []) := by
  intro u now cache p fs b pre cf hinv
  cases u with
  | none =>
      refine ⟨fun k v t hk => hinv k v t hk, ?_⟩
      intro bs hbs
      exact absurd hbs (by simp [capture_screenshot])
  | some url =>
      by_cases hv : valid_url url = true
      · cases hc : cacheLookup cache url now with
        | some v =>
            have hm := get_image_bytes_hit url now cache p fs b pre cf v hc
            have hres : (get_image_bytes url now cache p fs b pre cf).result =
                .ok v := by rw [hm]
            have hcap := capture_ok url now cache p fs b pre cf v hv hres
            rw [hm] at hcap
            rw [hcap]
            refine ⟨?_, ?_⟩
            · intro k w t hk
              exact hinv k w t hk
            · intro bs hbs
              obtain rfl : v = bs := by simpa using hbs
              obtain ⟨t, hfind, -⟩ := cacheLookup_some _ _ _ _ hc
              exact hinv url v t hfind
        | none =>
            cases hw : (get_image_bytes_worker url p fs b pre cf).result with
            | ok bs0 =>
                have hne : bs0 ≠ [] := (core_ok url p fs b pre bs0 hw).2.2.1
                have hm := get_image_bytes_miss_ok url now cache p fs b pre cf
                    bs0 hc hw
                have hres : (get_image_bytes url now cache p fs b pre cf).result =
                    .ok bs0 := by rw [hm]
                have hcap := capture_ok url now cache p fs b pre cf bs0 hv hres
                rw [hm] at hcap
                rw [hcap]
                refine ⟨?_, ?_⟩
                · intro k w t hk
                  simp only at hk
                  rw [cacheFind_cacheSet] at hk
                  by_cases hkurl : k = url
                  · rw [if_pos hkurl] at hk
                    obtain ⟨rfl, -⟩ : bs0 = w ∧ now = t := by
                      constructor <;> [exact congrArg (fun e => (e.getD ([], 0)).1) hk;
                        exact congrArg (fun e => (e.getD ([], 0)).2) hk]
                    exact hne
                  · rw [if_neg hkurl] at hk
                    exact hinv k w t hk
                · intro bs hbs
                  obtain rfl : bs0 = bs := by simpa using hbs
                  exact hne
            | error e =>
                have hm := get_image_bytes_miss_error url now cache p fs b pre cf
                    e hc hw
                have hcap := capture_error url now cache p fs b pre cf e hv
                    (by rw [hm])
                rw [hm] at hcap
                rw [hcap]
                refine ⟨fun k w t hk => hinv k w t hk, ?_⟩
                intro bs hbs
                exact absurd hbs (by simp)
      · have hv' : valid_url url = false := by simpa using hv
        refine ⟨?_, ?_⟩
        · intro k w t hk
          have hcc : (capture_screenshot (some url) now cache p fs b pre cf).cache =
              cache := by simp [capture_screenshot, hv']
          rw [hcc] at hk
          exact hinv k w t hk
        · intro bs hbs
          exact absurd hbs (by simp [capture_screenshot, hv'])

/-- C5: on every exit path the finally block removes the ephemeral output
file and the default screenshot file (when the removals succeed, neither
path exists afterwards); a failing removal changes only the resulting
filesystem, never the returned outcome; and after a timed-out computation
the ephemeral output path does not exist even when removals fail, the
temporary name being fresh and distinct from the default location. -/
theorem C5_cleanup_every_exit_path :
    ∀ (url : String) (p : Path) (fs : FS) (b : RunBehavior) (pre : Bool),
      (fsLookup (get_image_bytes_worker url p fs b pre (fun _ => false)).fs p =
          none ∧
        fsLookup (get_image_bytes_worker url p fs b pre (fun _ => false)).fs
          defaultScreenshotFile = none) ∧
      (∀ cf : Path → Bool,
        (get_image_bytes_worker url p fs b pre cf).result =
          (get_image_bytes_worker url p fs b pre (fun _ => false)).result) ∧
      (∀ cf : Path → Bool,
        b.result = .timedOut → p ≠ defaultScreenshotFile →
        fsLookup fs p = none →
        fsLookup (get_image_bytes_worker url p fs b pre cf).fs p = none) := by
  intro url p fs b pre
  refine ⟨⟨?_, ?_⟩, ?_, ?_⟩
  · rw [worker_fs_eq, fsLookup_cleanup_noFail]
    simp
  · rw [worker_fs_eq, fsLookup_cleanup_noFail]
    simp
  · intro cf
    rfl
  · intro cf htime hp hfresh
    rw [worker_fs_eq]
    apply fsLookup_cleanup_mono
    by_cases hpre : (fsExists fs defaultScreenshotFile && pre) = true
    · rw [core_guard_pos _ _ _ _ _ hpre]
      exact hfresh
    · rw [core_guard_neg _ _ _ _ _ hpre]
      obtain ⟨res, written⟩ := b
      simp only at htime
      subst htime
      cases written <;>
        simp [renderAndValidate, fsAfterRun, fsLookup_fsSet, fsLookup_fsRemove,
          hp, hfresh]

/-- C5 witness: a timed-out run over a filesystem holding a stale default
file reports the same outcome whether or not removals fail, and the
ephemeral output path does not exist afterwards in either case. -/
theorem C5_cleanup_every_exit_path_witness :
    fsLookup (get_image_bytes_worker "https://example.com" "/tmp/o.png"
        [(defaultScreenshotFile, [9])] ⟨ProcOutcome.timedOut, some [1]⟩ false
        (fun _ => false)).fs "/tmp/o.png" = none ∧
    (get_image_bytes_worker "https://example.com" "/tmp/o.png"
        [(defaultScreenshotFile, [9])] ⟨ProcOutcome.timedOut, some [1]⟩ false
        (fun _ => true)).result =
      (get_image_bytes_worker "https://example.com" "/tmp/o.png"
        [(defaultScreenshotFile, [9])] ⟨ProcOutcome.timedOut, some [1]⟩ false
        (fun _ => false)).result ∧
    fsLookup (get_image_bytes_worker "https://example.com" "/tmp/o.png"
        [(defaultScreenshotFile, [9])] ⟨ProcOutcome.timedOut, some [1]⟩ false
        (fun _ => true)).fs "/tmp/o.png" = none := by
  have h := C5_cleanup_every_exit_path "https://example.com" "/tmp/o.png"
      [(defaultScreenshotFile, [9])] ⟨ProcOutcome.timedOut, some [1]⟩ false
  exact ⟨h.1.1, h.2.1 (fun _ => true),
    h.2.2 (fun _ => true) rfl (by decide) (by decide)⟩

/-- C6: on a cache miss with a valid url, the handler maps each failure
class to exactly one status: renderer timeout → 504; non-zero exit,
missing executable, a zero-exit run that left no artifact or an empty
artifact, and the unclassified internal error (a failing removal of a
stale default file before the run) → 500; only a validated successful run
yields 200.  Every non-200 outcome carries a non-empty descriptive
body. -/
theorem C6_status_mapping :
    ∀ (url : String) (now : Nat) (cache : CacheState) (p : Path) (fs : FS)
      (b : RunBehavior) (pre : Bool) (cf : Path → Bool),
      valid_url url = true →
      cacheLookup cache url now = none →
      (capture_screenshot (some url) now cache p fs b pre cf).status =
        (if fsExists fs defaultScreenshotFile && pre then 500
         else
           match b.result, b.written with
           | .timedOut, _ => 504
           | .calledProcessError _, _ => 500
           | .fileNotFound, _ => 500
           | .success, none => 500
           | .success, some bs => if bs.length = 0 then 500 else 200) ∧
      ((capture_screenshot (some url) now cache p fs b pre cf).status ≠ 200 →
        (capture_screenshot (some url) now cache p fs b pre cf).bodyText.length ≠
          0) := by
  intro url now cache p fs b pre cf hv hc
  cases hw : (get_image_bytes_worker url p fs b pre cf).result with
  | ok bs =>
      have hcap := capture_ok url now cache p fs b pre cf bs hv
        (by rw [get_image_bytes_miss_ok url now cache p fs b pre cf bs hc hw])
      obtain ⟨hres, hwr, hne, -⟩ := core_ok url p fs b pre bs hw
      have hpre : (fsExists fs defaultScreenshotFile && pre) = false := by
        by_contra hx
        have hx' : (fsExists fs defaultScreenshotFile && pre) = true := by
          simpa using hx
        rw [worker_result_eq_core, core_guard_pos url p fs b pre hx'] at hw
        simp at hw
      rw [hcap]
      obtain ⟨res, written⟩ := b
      simp only at hres hwr
      subst hres
      subst hwr
      refine ⟨?_, ?_⟩
      · simp [hpre, hne]
      · intro h200
        exact absurd rfl h200
  | error e =>
      have hm := get_image_bytes_miss_error url now cache p fs b pre cf e hc hw
      have hcap := capture_error url now cache p fs b pre cf e hv (by rw [hm])
      rw [hcap]
      rw [worker_result_eq_core, core_result_eq] at hw
      by_cases hpre : (fsExists fs defaultScreenshotFile && pre) = true
      · rw [if_pos hpre] at hw
        obtain rfl :
            e = ⟨500, "An unexpected server error occurred in worker."⟩ := by
          simpa using hw.symm
        refine ⟨by simp [hpre], fun _ => ?_⟩
        show ("An unexpected server error occurred in worker." : String).length ≠ 0
        decide
      · rw [if_neg hpre] at hw
        obtain ⟨res, written⟩ := b
        cases res with
        | timedOut =>
            obtain rfl : e = ⟨504, "Screenshot command timed out."⟩ := by
              simpa using hw.symm
            refine ⟨by simp [hpre], fun _ => ?_⟩
            show ("Screenshot command timed out." : String).length ≠ 0
            decide
        | calledProcessError stderr =>
            obtain rfl :
                e = ⟨500, "Firefox failed to take screenshot. Error: " ++ stderr⟩ := by
              simpa using hw.symm
            refine ⟨by simp [hpre], fun _ => ?_⟩
            show ("Firefox failed to take screenshot. Error: " ++ stderr).length ≠ 0
            rw [String.length_append]
            have hlit :
                0 < ("Firefox failed to take screenshot. Error: " : String).length := by
              decide
            omega
        | fileNotFound =>
            obtain rfl : e = ⟨500, "Firefox executable not found on server."⟩ := by
              simpa using hw.symm
            refine ⟨by simp [hpre], fun _ => ?_⟩
            show ("Firefox executable not found on server." : String).length ≠ 0
            decide
        | success =>
            cases written with
            | none =>
                obtain rfl :
                    e = ⟨500, "Firefox ran but failed to produce a screenshot."⟩ := by
                  simpa using hw.symm
                refine ⟨by simp [hpre], fun _ => ?_⟩
                show ("Firefox ran but failed to produce a screenshot." : String).length ≠ 0
                decide
            | some bs =>
                simp only at hw
                by_cases hlen : bs.length = 0
                · rw [if_pos hlen] at hw
                  obtain rfl :
                      e = ⟨500, "Firefox ran but failed to produce a screenshot."⟩ := by
                    simpa using hw.symm
                  refine ⟨by simp [hpre, hlen], fun _ => ?_⟩
                  show ("Firefox ran but failed to produce a screenshot." : String).length ≠ 0
                  decide
                · rw [if_neg hlen] at hw
                  exact absurd hw.symm (by simp)

/-- C6 witness: a timed-out renderer run on a cache miss is answered 504
with a non-empty body. -/
theorem C6_status_mapping_witness :
    (capture_screenshot (some "https://example.com") 0 [] "/tmp/o.png" []
        ⟨ProcOutcome.timedOut, none⟩ false (fun _ => false)).status = 504 ∧
    (capture_screenshot (some "https://example.com") 0 [] "/tmp/o.png" []
        ⟨ProcOutcome.timedOut, none⟩ false (fun _ => false)).bodyText.length ≠
      0 := by
  have h := C6_status_mapping "https://example.com" 0 [] "/tmp/o.png" []
      ⟨ProcOutcome.timedOut, none⟩ false (fun _ => false) (by decide) rfl
  refine ⟨?_, h.2 ?_⟩ <;> rw [h.1] <;> decide

/-- C3: a computation that fails stores no cache entry — the cache after
the memoized call is exactly the cache before it — and therefore a later
request that still finds the key uncached executes the computation
again. -/
theorem C3_failure_never_cached :
    ∀ (url : String) (now now2 : Nat) (cache : CacheState) (p p2 : Path)
      (fs fs2 : FS) (b b2 : RunBehavior) (pre pre2 : Bool)
      (cf cf2 : Path → Bool) (e : HErr),
      (get_image_bytes url now cache p fs b pre cf).result = .error e →
      (get_image_bytes url now cache p fs b pre cf).cache = cache ∧
      (cacheLookup cache url now2 = none →
        (get_image_bytes url now2
            (get_image_bytes url now cache p fs b pre cf).cache
            p2 fs2 b2 pre2 cf2).runInvoked = true) := by
  intro url now now2 cache p p2 fs fs2 b b2 pre pre2 cf cf2 e herr
  have hcache : (get_image_bytes url now cache p fs b pre cf).cache = cache := by
    cases hc : cacheLookup cache url now with
    | some v =>
        rw [get_image_bytes_hit url now cache p fs b pre cf v hc] at herr
        exact absurd herr (by simp)
    | none =>
        cases hw : (get_image_bytes_worker url p fs b pre cf).result with
        | ok bs =>
            rw [get_image_bytes_miss_ok url now cache p fs b pre cf bs hc hw]
              at herr
            exact absurd herr (by simp)
        | error e2 =>
            rw [get_image_bytes_miss_error url now cache p fs b pre cf e2 hc hw]
  refine ⟨hcache, ?_⟩
  intro hmiss
  rw [hcache]
  exact get_image_bytes_miss_runInvoked url now2 cache p2 fs2 b2 pre2 cf2 hmiss

/-- C3 witness: a timed-out first request caches nothing, and a retry for
the same url runs the renderer again. -/
theorem C3_failure_never_cached_witness :
    (get_image_bytes "https://example.com" 0 [] "/tmp/o.png" []
        ⟨ProcOutcome.timedOut, none⟩ false (fun _ => false)).cache = [] ∧
    (get_image_bytes "https://example.com" 5
        (get_image_bytes "https://example.com" 0 [] "/tmp/o.png" []
          ⟨ProcOutcome.timedOut, none⟩ false (fun _ => false)).cache
        "/tmp/o2.png" [] ⟨ProcOutcome.timedOut, none⟩ false
        (fun _ => false)).runInvoked = true := by
  have h := C3_failure_never_cached "https://example.com" 0 5 [] "/tmp/o.png"
      "/tmp/o2.png" [] [] ⟨ProcOutcome.timedOut, none⟩
      ⟨ProcOutcome.timedOut, none⟩ false false (fun _ => false) (fun _ => false)
      ⟨504, "Screenshot command timed out."⟩ rfl
  exact ⟨h.1, h.2 rfl⟩

/-- C9: a first memoized call on an uncached url runs the renderer (its
single invocation for that call); when it succeeds, a second call strictly
within the 3600-second TTL performs zero renderer invocations and returns
bytes identical to the first response, while a second call at or past the
TTL boundary treats the entry as a miss and runs the renderer afresh. -/
theorem C9_ttl_semantics :
    ∀ (url : String) (now now2 : Nat) (cache : CacheState) (p p2 : Path)
      (fs fs2 : FS) (b b2 : RunBehavior) (pre pre2 : Bool)
      (cf cf2 : Path → Bool) (bs : Bytes),
      cacheLookup cache url now = none →
      (get_image_bytes url now cache p fs b pre cf).result = .ok bs →
      (get_image_bytes url now cache p fs b pre cf).runInvoked = true ∧
      (now2 < now + MEMOIZE_TIMEOUT →
        (get_image_bytes url now2
            (get_image_bytes url now cache p fs b pre cf).cache
            p2 fs2 b2 pre2 cf2).runInvoked = false ∧
        (get_image_bytes url now2
            (get_image_bytes url now cache p fs b pre cf).cache
            p2 fs2 b2 pre2 cf2).result = .ok bs) ∧
      (now + MEMOIZE_TIMEOUT ≤ now2 →
        (get_image_bytes url now2
            (get_image_bytes url now cache p fs b pre cf).cache
            p2 fs2 b2 pre2 cf2).runInvoked = true) := by
  intro url now now2 cache p p2 fs fs2 b b2 pre pre2 cf cf2 bs hc hok
  cases hw : (get_image_bytes_worker url p fs b pre cf).result with
  | error e =>
      rw [get_image_bytes_miss_error url now cache p fs b pre cf e hc hw] at hok
      exact absurd hok (by simp)
  | ok bs0 =>
      have hm := get_image_bytes_miss_ok url now cache p fs b pre cf bs0 hc hw
      obtain rfl : bs0 = bs := by
        rw [hm] at hok
        simpa using hok
      have hcache : (get_image_bytes url now cache p fs b pre cf).cache =
          cacheSet cache url bs0 now := by rw [hm]
      refine ⟨by rw [hm], ?_, ?_⟩
      · intro hlt
        have hl : cacheLookup (cacheSet cache url bs0 now) url now2 = some bs0 := by
          unfold cacheLookup
          rw [cacheFind_cacheSet]
          simp [hlt]
        rw [hcache, get_image_bytes_hit url now2 (cacheSet cache url bs0 now)
          p2 fs2 b2 pre2 cf2 bs0 hl]
        exact ⟨rfl, rfl⟩
      · intro hge
        have hnl : ¬ now2 < now + MEMOIZE_TIMEOUT := Nat.not_lt.mpr hge
        have hl : cacheLookup (cacheSet cache url bs0 now) url now2 = none := by
          unfold cacheLookup
          rw [cacheFind_cacheSet]
          simp [hnl]
        rw [hcache]
        exact get_image_bytes_miss_runInvoked url now2 (cacheSet cache url bs0 now)
          p2 fs2 b2 pre2 cf2 hl

/-- C9 witness: a successful first call at time 0, a hit returning the
same bytes at time 10, and a fresh invocation at time 3600. -/
theorem C9_ttl_semantics_witness :
    (get_image_bytes "https://example.com" 0 [] "/tmp/a.png" []
        ⟨ProcOutcome.success, some [1, 2]⟩ false (fun _ => false)).runInvoked =
      true ∧
    (get_image_bytes "https://example.com" 10
        (get_image_bytes "https://example.com" 0 [] "/tmp/a.png" []
          ⟨ProcOutcome.success, some [1, 2]⟩ false (fun _ => false)).cache
        "/tmp/b.png" [] ⟨ProcOutcome.timedOut, none⟩ false
        (fun _ => false)).result = .ok [1, 2] ∧
    (get_image_bytes "https://example.com" 3600
        (get_image_bytes "https://example.com" 0 [] "/tmp/a.png" []
          ⟨ProcOutcome.success, some [1, 2]⟩ false (fun _ => false)).cache
        "/tmp/b.png" [] ⟨ProcOutcome.timedOut, none⟩ false
        (fun _ => false)).runInvoked = true := by
  have h1 := C9_ttl_semantics "https://example.com" 0 10 [] "/tmp/a.png"
      "/tmp/b.png" [] [] ⟨ProcOutcome.success, some [1, 2]⟩
      ⟨ProcOutcome.timedOut, none⟩ false false (fun _ => false) (fun _ => false)
      [1, 2] rfl rfl
  have h2 := C9_ttl_semantics "https://example.com" 0 3600 [] "/tmp/a.png"
      "/tmp/b.png" [] [] ⟨ProcOutcome.success, some [1, 2]⟩
      ⟨ProcOutcome.timedOut, none⟩ false false (fun _ => false) (fun _ => false)
      [1, 2] rfl rfl
  exact ⟨h1.1, (h1.2.1 (by decide)).2, h2.2.2 (by decide)⟩

/-- One scheduler step preserves the lock invariant. -/
theorem lock_step_inv (a c : LockModel.St) (hac : LockModel.Step a c)
    (ih : LockModel.HoldsInv a) : LockModel.HoldsInv c := by
  cases hac with
  | request t' s' h =>
      intro t ht
      by_cases htt : t = t'
      · subst htt
        simp [LockModel.upd] at ht
      · have hb : a.pc t = LockModel.PC.rendering := by
          simpa [LockModel.upd, htt] using ht
        exact ih t hb
  | acquire t' s' h hl =>
      intro t ht
      by_cases htt : t = t'
      · subst htt
        rfl
      · have hb : a.pc t = LockModel.PC.rendering := by
          simpa [LockModel.upd, htt] using ht
        exact absurd (ih t hb) (by simp [hl])
  | release t' s' h =>
      intro t ht
      by_cases htt : t = t'
      · subst htt
        simp [LockModel.upd] at ht
      · have hb : a.pc t = LockModel.PC.rendering := by
          simpa [LockModel.upd, htt] using ht
        have h1 := ih t hb
        have h2 := ih t' h
        rw [h1] at h2
        exact absurd (by simpa using h2) htt

/-- Strengthened invariant for the lock model: a thread inside the
with-firefox_lock region holds the lock. -/
theorem lock_holds_inv (s : LockModel.St) (hs : LockModel.Reach s) :
    LockModel.HoldsInv s := by
  induction hs with
  | refl =>
      intro t ht
      exact absurd ht (by simp [LockModel.init])
  | tail hab hbc ih =>
      exact lock_step_inv _ _ hbc ih

/-- C4: in every state reachable under any interleaving of request
threads, at most one thread is inside the firefox_lock region that
performs the renderer invocation — two threads both rendering are the
same thread. -/
theorem C4_renderer_mutual_exclusion :
    ∀ (s : LockModel.St) (t1 t2 : Nat),
      LockModel.Reach s →
      s.pc t1 = LockModel.PC.rendering →
      s.pc t2 = LockModel.PC.rendering →
      t1 = t2 := by
  intro s t1 t2 hs h1 h2
  have i1 := lock_holds_inv s hs t1 h1
  have i2 := lock_holds_inv s hs t2 h2
  rw [i1] at i2
  exact Option.some.inj i2

/-- C4 witness: a concrete reachable state in which thread 0 renders, at
which the mutual-exclusion theorem applies. -/
theorem C4_renderer_mutual_exclusion_witness : (0 : Nat) = 0 := by
  have h1 : LockModel.Step LockModel.init
      { pc := LockModel.upd LockModel.init.pc 0 LockModel.PC.waiting,
        lock := LockModel.init.lock } :=
    LockModel.Step.request 0 LockModel.init rfl
  have h2 : LockModel.Step
      { pc := LockModel.upd LockModel.init.pc 0 LockModel.PC.waiting,
        lock := LockModel.init.lock }
      { pc := LockModel.upd (LockModel.upd LockModel.init.pc 0
          LockModel.PC.waiting) 0 LockModel.PC.rendering,
        lock := some 0 } :=
    LockModel.Step.acquire 0 _ rfl rfl
  have hreach : LockModel.Reach
      { pc := LockModel.upd (LockModel.upd LockModel.init.pc 0
          LockModel.PC.waiting) 0 LockModel.PC.rendering,
        lock := some 0 } :=
    Relation.ReflTransGen.tail (Relation.ReflTransGen.tail
      Relation.ReflTransGen.refl h1) h2
  exact C4_renderer_mutual_exclusion _ 0 0 hreach rfl rfl

/-- C1 counterexample: the memoize layer has no single-flight guarantee.
From the initial state — one uncached key, two concurrent callers — the
interleaving in which both callers find the key missing before either
stores leads to a reachable state whose renderer-invocation count is 2,
not the single execution the claim asserts (the invocations may even be
serialised by the lock; they still both happen). -/
theorem C1_counterexample_two_invocations :
    MemoModel.Reach
      { pc := MemoModel.upd (MemoModel.upd (MemoModel.upd (MemoModel.upd
            (fun _ => MemoModel.MPC.start) 0 MemoModel.MPC.missed) 1
            MemoModel.MPC.missed) 0 MemoModel.MPC.computed) 1
            MemoModel.MPC.computed,
        cache := none } ∧
    MemoModel.invocations
      { pc := MemoModel.upd (MemoModel.upd (MemoModel.upd (MemoModel.upd
            (fun _ => MemoModel.MPC.start) 0 MemoModel.MPC.missed) 1
            MemoModel.MPC.missed) 0 MemoModel.MPC.computed) 1
            MemoModel.MPC.computed,
        cache := none } 2 = 2 := by
  refine ⟨?_, by decide⟩
  exact Relation.ReflTransGen.tail (Relation.ReflTransGen.tail
    (Relation.ReflTransGen.tail (Relation.ReflTransGen.tail
      Relation.ReflTransGen.refl
      (MemoModel.Step.checkMiss 0 MemoModel.init rfl rfl))
    (MemoModel.Step.checkMiss 1 _ rfl rfl))
    (MemoModel.Step.compute 0 _ rfl))
    (MemoModel.Step.compute 1 _ rfl)

/-- One step of the memoize interleaving preserves: the cache stays
populated, and a thread parked at its cache check in a populated-cache
state stays at the check or leaves through the hit path. -/
theorem memo_step_inv (t : Nat) (a c : MemoModel.MSt)
    (hac : MemoModel.Step a c)
    (ih : (∃ w, a.cache = some w) ∧
      (a.pc t = MemoModel.MPC.start ∨ a.pc t = MemoModel.MPC.doneHit)) :
    (∃ w, c.cache = some w) ∧
      (c.pc t = MemoModel.MPC.start ∨ c.pc t = MemoModel.MPC.doneHit) := by
  obtain ⟨⟨w, hw⟩, hptc⟩ := ih
  cases hac with
  | checkHit t' s' v' h hc =>
      refine ⟨⟨w, hw⟩, ?_⟩
      by_cases htt : t = t'
      · subst htt
        right
        simp [MemoModel.upd]
      · simpa [MemoModel.upd, htt] using hptc
  | checkMiss t' s' h hc =>
      rw [hc] at hw
      exact absurd hw (by simp)
  | compute t' s' h =>
      refine ⟨⟨w, hw⟩, ?_⟩
      by_cases htt : t = t'
      · subst htt
        rcases hptc with h1 | h1 <;> rw [h] at h1 <;> simp at h1
      · simpa [MemoModel.upd, htt] using hptc
  | store t' s' h =>
      refine ⟨⟨MemoModel.renderedBytes, rfl⟩, ?_⟩
      by_cases htt : t = t'
      · subst htt
        rcases hptc with h1 | h1 <;> rw [h] at h1 <;> simp at h1
      · simpa [MemoModel.upd, htt] using hptc

/-- C1 amended: concurrent callers of the same uncached key may each
execute the renderer computation (one invocation per caller, not one in
total); what does hold is that the cache is populated permanently once
one computation stores, and any caller whose cache check happens from
then on performs no computation — it leaves through the hit path. -/
theorem C1_amended_populated_check_never_computes :
    ∀ (s s' : MemoModel.MSt) (t : Nat) (v : Bytes),
      MemoModel.Reach s →
      s.cache = some v →
      s.pc t = MemoModel.MPC.start →
      MemoModel.Steps s s' →
      s'.pc t = MemoModel.MPC.start ∨ s'.pc t = MemoModel.MPC.doneHit := by
  intro s s' t v hreach hcache hpc hsteps
  have main : (∃ w, s'.cache = some w) ∧
      (s'.pc t = MemoModel.MPC.start ∨ s'.pc t = MemoModel.MPC.doneHit) := by
    clear hreach
    induction hsteps with
    | refl => exact ⟨⟨v, hcache⟩, Or.inl hpc⟩
    | tail hab hbc ih => exact memo_step_inv t _ _ hbc ih
  exact main.2

/-- C1 amended witness: after a full miss-compute-store by thread 0, the
populated-cache state is reachable and thread 1, still at its check, can
never reach a computing program point. -/
theorem C1_amended_populated_check_never_computes_witness :
    MemoModel.upd (MemoModel.upd (MemoModel.upd
        (fun _ => MemoModel.MPC.start) 0 MemoModel.MPC.missed) 0
        MemoModel.MPC.computed) 0 MemoModel.MPC.stored 1 =
      MemoModel.MPC.start ∨
    MemoModel.upd (MemoModel.upd (MemoModel.upd
        (fun _ => MemoModel.MPC.start) 0 MemoModel.MPC.missed) 0
        MemoModel.MPC.computed) 0 MemoModel.MPC.stored 1 =
      MemoModel.MPC.doneHit := by
  have hreach : MemoModel.Reach
      { pc := MemoModel.upd (MemoModel.upd (MemoModel.upd
            (fun _ => MemoModel.MPC.start) 0 MemoModel.MPC.missed) 0
            MemoModel.MPC.computed) 0 MemoModel.MPC.stored,
        cache := some MemoModel.renderedBytes } :=
    Relation.ReflTransGen.tail (Relation.ReflTransGen.tail
      (Relation.ReflTransGen.tail Relation.ReflTransGen.refl
        (MemoModel.Step.checkMiss 0 MemoModel.init rfl rfl))
      (MemoModel.Step.compute 0 _ rfl))
      (MemoModel.Step.store 0 _ rfl)
  exact C1_amended_populated_check_never_computes _ _ 1 MemoModel.renderedBytes
    hreach rfl rfl Relation.ReflTransGen.refl

/-- C8 witness: starting from an empty (hence all-non-empty) cache, a
successful request leaves only non-empty entries and returns a non-empty
200 body. -/
theorem C8_entries_and_200_nonempty_witness :
    cacheFind (cacheSet [] "https://example.com" [7, 8] 0)
      "https://example.com" = some ([7, 8], 0) ∧ ([7, 8] : Bytes) ≠ [] := by
  have h := C8_entries_and_200_nonempty (some "https://example.com") 0 []
      "/tmp/o.png" [] ⟨ProcOutcome.success, some [7, 8]⟩ false (fun _ => false)
      (fun k v t hk => by simp [cacheFind] at hk)
  exact ⟨by decide, h.1 "https://example.com" [7, 8] 0 (by decide)⟩

/-- C7: a request whose url parameter is missing, or whose url does not
start with http or https, is answered 400 by capture_screenshot, and for
such a request neither the memoized cache computation nor the renderer
process is invoked. -/
theorem C7_validation_rejects_before_cache :
    ∀ (now : Nat) (cache : CacheState) (outputPath : Path) (fs : FS)
      (b : RunBehavior) (pre : Bool) (cf : Path → Bool),
      ((capture_screenshot none now cache outputPath fs b pre cf).status = 400 ∧
        (capture_screenshot none now cache outputPath fs b pre cf).cacheTouched = false ∧
        (capture_screenshot none now cache outputPath fs b pre cf).runInvoked = false) ∧
      (∀ url : String, valid_url url = false →
        (capture_screenshot (some url) now cache outputPath fs b pre cf).status = 400 ∧
        (capture_screenshot (some url) now cache outputPath fs b pre cf).cacheTouched = false ∧
        (capture_screenshot (some url) now cache outputPath fs b pre cf).runInvoked = false) := by
  intro now cache p fs b pre cf
  refine ⟨⟨rfl, rfl, rfl⟩, ?_⟩
  intro url hurl
  simp [capture_screenshot, hurl]

/-- C2 counterexample: at a concrete cache-miss invocation the command
passed to the renderer is exactly ["firefox", "--headless",
"--screenshot", url]; it contains the target url but not the destination
output file path, refuting the claim that both are passed as arguments. -/
theorem C2_counterexample_no_output_path_in_command :
    (get_image_bytes_worker "https://example.com" "/tmp/tmpabc123.png" []
        ⟨ProcOutcome.success, some [1]⟩ false (fun _ => false)).commandUsed =
      some ["firefox", "--headless", "--screenshot", "https://example.com"] ∧
    "/tmp/tmpabc123.png" ∉
      ["firefox", "--headless", "--screenshot", "https://example.com"] :=
  ⟨rfl, by decide⟩

/-- C2 amended: every renderer invocation receives the command
["firefox", "--headless", "--screenshot", url] — the target url and no
output file path; the destination path receives the artifact only through
the move performed after the run, so on a successful run the returned
bytes sit at the destination path before the finally-block cleanup. -/
theorem C2_amended_command_has_url_only_artifact_moved :
    ∀ (url : String) (outputPath : Path) (fs : FS) (b : RunBehavior)
      (pre : Bool) (cf : Path → Bool),
      ((get_image_bytes_worker url outputPath fs b pre cf).runInvoked = true →
        (get_image_bytes_worker url outputPath fs b pre cf).commandUsed =
          some (firefoxCommand url) ∧ url ∈ firefoxCommand url) ∧
      (∀ bs : Bytes,
        (get_image_bytes_core url outputPath fs b pre).result = .ok bs →
        fsLookup (get_image_bytes_core url outputPath fs b pre).fs outputPath =
          some bs) := by
  intro url p fs b pre cf
  constructor
  · intro hrun
    refine ⟨?_, by simp [firefoxCommand]⟩
    unfold get_image_bytes_worker at hrun ⊢
    unfold get_image_bytes_core at hrun ⊢
    by_cases hpre : (fsExists fs defaultScreenshotFile && pre) = true
    · rw [if_pos hpre] at hrun
      exact absurd hrun (by simp)
    · rw [if_neg hpre] at hrun ⊢
      simpa using renderAndValidate_commandUsed url p (fsRemove fs defaultScreenshotFile) b
  · intro bs hok
    unfold get_image_bytes_core at hok ⊢
    by_cases hpre : (fsExists fs defaultScreenshotFile && pre) = true
    · rw [if_pos hpre] at hok
      exact absurd hok (by simp)
    · rw [if_neg hpre] at hok ⊢
      obtain ⟨-, -, -, hfs⟩ := renderAndValidate_ok _ _ _ _ _ hok
      rw [hfs, fsLookup_fsSet]
      simp

/-- C2 amended witness: a concrete successful invocation uses the
four-element command and leaves the artifact at the destination path. -/
theorem C2_amended_command_has_url_only_artifact_moved_witness :
    (get_image_bytes_worker "https://example.com" "/tmp/tmpabc123.png" []
        ⟨ProcOutcome.success, some [1, 2]⟩ false (fun _ => false)).commandUsed =
      some (firefoxCommand "https://example.com") ∧
    fsLookup (get_image_bytes_core "https://example.com" "/tmp/tmpabc123.png" []
        ⟨ProcOutcome.success, some [1, 2]⟩ false).fs "/tmp/tmpabc123.png" =
      some [1, 2] := by
  have h := C2_amended_command_has_url_only_artifact_moved "https://example.com"
      "/tmp/tmpabc123.png" [] ⟨ProcOutcome.success, some [1, 2]⟩ false (fun _ => false)
  exact ⟨(h.1 rfl).1, h.2 [1, 2] rfl⟩

/-- C7 witness: the missing-url request and the request with url=ftp://x
are both rejected with 400 and the renderer is not invoked. -/
theorem C7_validation_rejects_before_cache_witness :
    (capture_screenshot (some "ftp://x") 0 [] "/tmp/out.png" []
        ⟨ProcOutcome.success, some [1]⟩ false (fun _ => false)).status = 400 ∧
    (capture_screenshot (some "ftp://x") 0 [] "/tmp/out.png" []
        ⟨ProcOutcome.success, some [1]⟩ false (fun _ => false)).runInvoked = false := by
  have h := (C7_validation_rejects_before_cache 0 [] "/tmp/out.png" []
      ⟨ProcOutcome.success, some [1]⟩ false (fun _ => false)).2 "ftp://x" (by decide)
  exact ⟨h.1, h.2.2⟩


end App
